import Mathlib

/-!
Verification development for the call-center dashboard pricing/analytics services.

Python floats and Decimals are modelled as exact rationals (`ℚ`) and, where the
source uses transcendental functions (`math.log`, floating-point powers), as
reals (`ℝ`).  Python's `round(x, n)` is modelled by `roundTo n` (round half up
at the n-th decimal; the claims below never evaluate it at a tie, where
Python's half-to-even convention would differ).  Functions that can raise a
Python exception are modelled in `Except PyErr`.
-/

/-- Kinds of Python runtime exceptions (and the typed error kinds the spec
names) that the embedded services can surface. -/
inductive PyErr where
  | zeroDivision
  | attributeError
  | invalidArgument
  | valueError
  deriving DecidableEq

/-- Model of Python's `round(x, n)` on exact rationals (round half up). -/
def roundTo (n : ℕ) (x : ℚ) : ℚ := (round (x * 10 ^ n) : ℤ) / 10 ^ n

/-- Rounding a real to `n` decimals, the real-valued analogue of `roundTo`
for the floating-point `round(x, n)` of the source. -/
noncomputable def roundToR (n : ℕ) (x : ℝ) : ℝ := (round (x * 10 ^ n) : ℤ) / 10 ^ n

/-- Model of Python's `str.upper()` (the keys involved are pure ASCII). -/
def pyUpper (s : String) : String := String.mk (s.data.map Char.toUpper)

/-- Model of Python's `str.lower()` (the keys involved are pure ASCII). -/
def pyLower (s : String) : String := String.mk (s.data.map Char.toLower)

namespace CostAnalysis

/-! Embedding of `app/services/cost_analysis_service.py`. -/

/-- The `SubscriptionTier` dataclass of `cost_analysis_service.py`. -/
structure Tier where
  name : String
  max_calls : ℤ
  price_per_month : ℚ
  setup_fee : ℚ
  features : List String
  deriving DecidableEq

/-- The `Starter` tier of the catalog in `CostAnalysisService.__init__`. -/
def starterTier : Tier :=
  { name := "Starter", max_calls := 1000, price_per_month := 450, setup_fee := 1000,
    features := ["AI-powered outbound calls", "Basic analytics dashboard",
      "Standard business hours support", "Basic call scripts"] }

/-- The `Professional` tier of the catalog. -/
def professionalTier : Tier :=
  { name := "Professional", max_calls := 5000, price_per_month := 2000, setup_fee := 2500,
    features := ["All Starter features", "24/7 call availability",
      "Advanced analytics and reporting", "Custom call scripts", "Priority support",
      "Call recording and transcription"] }

/-- The `Enterprise` tier of the catalog. -/
def enterpriseTier : Tier :=
  { name := "Enterprise", max_calls := 10000, price_per_month := 3500, setup_fee := 5000,
    features := ["All Professional features", "Dedicated account manager",
      "Custom AI agent personalities", "API integration", "Advanced customization options",
      "SLA guarantees", "Training and onboarding support"] }

/-- The `Ultimate` tier of the catalog. -/
def ultimateTier : Tier :=
  { name := "Ultimate", max_calls := 25000, price_per_month := 7500, setup_fee := 10000,
    features := ["All Enterprise features", "Multi-language support",
      "Custom integration development", "Dedicated development team", "White-label options",
      "Custom analytics development", "Executive quarterly reviews"] }

/-- `self.subscription_tiers`, in catalog (list) order. -/
def subscription_tiers : List Tier :=
  [starterTier, professionalTier, enterpriseTier, ultimateTier]

/-- The list comprehension `[tier for tier in self.subscription_tiers if
tier.max_calls >= current_monthly_calls]` in `recommend_subscription`. -/
def suitable_tiers (current_monthly_calls : ℤ) : List Tier :=
  subscription_tiers.filter (fun t => current_monthly_calls ≤ t.max_calls)

/-- Python's `min(..., key=lambda x: x.price_per_month)`: scan the list keeping
the current minimum, replacing it only on a strictly smaller key, so the first
minimal element wins. -/
def minByPrice : Tier → List Tier → Tier
  | best, [] => best
  | best, t :: rest => minByPrice (if t.price_per_month < best.price_per_month then t else best) rest

/-- The successful (non-sentinel) result dictionary of `recommend_subscription`. -/
structure Recommendation where
  recommendation : Tier
  monthly_savings : ℚ
  annual_savings : ℚ
  roi_months : ℚ
  cost_reduction_percentage : ℚ
  deriving DecidableEq

/-- Outcome of `recommend_subscription`: either the custom-enterprise sentinel
dictionary (no numeric tier, `estimated_savings: None`) or a tier recommendation. -/
inductive RecOutcome where
  | custom
  | found (r : Recommendation)
  deriving DecidableEq

/-- `CostAnalysisService.recommend_subscription`.  The unused
`target_monthly_cost = current_monthly_cost * 0.5` binding of the source is dead
code and is omitted.  When the qualifying branch is reached with
`current_monthly_cost = 0`, evaluating `cost_reduction_percentage` raises
`ZeroDivisionError` in Python, modelled by the `.error` branch. -/
def recommend_subscription (current_monthly_calls : ℤ) (current_monthly_cost : ℚ) :
    Except PyErr RecOutcome :=
  match suitable_tiers current_monthly_calls with
  | [] => .ok .custom
  | t :: rest =>
    let recommended := minByPrice t rest
    let monthly_savings := current_monthly_cost - recommended.price_per_month
    let roi_months := if 0 < monthly_savings then recommended.setup_fee / monthly_savings else 0
    if current_monthly_cost = 0 then .error .zeroDivision
    else .ok (.found
      { recommendation := recommended,
        monthly_savings := roundTo 2 monthly_savings,
        annual_savings := roundTo 2 (monthly_savings * 12),
        roi_months := roundTo 1 roi_months,
        cost_reduction_percentage := roundTo 1 (monthly_savings / current_monthly_cost * 100) })

end CostAnalysis

namespace AdvancedCost

/-! Embedding of `app/services/advanced_cost_analysis.py`. -/

/-- `_calculate_direct_costs` (the `total` field). -/
def direct_costs_total (num_agents : ℤ) (avg_agent_salary : ℚ) : ℚ :=
  num_agents * (avg_agent_salary / 12 + (avg_agent_salary / 12) * (3/10) + 200 + 300)

/-- `_calculate_indirect_costs` (the `total` field); `num_agents / 10` is
Python 3 true division. -/
def indirect_costs_total (num_agents calls_per_month : ℤ) : ℚ :=
  1000 * ((num_agents : ℚ) / 10) + 500 * num_agents + (1/2) * calls_per_month + 200 * num_agents

/-- `_calculate_opportunity_costs` (the `total` field). -/
def opportunity_costs_total (num_agents calls_per_month : ℤ) : ℚ :=
  (calls_per_month : ℚ) * (1 - 3/4) * 5 + num_agents * 500 + calls_per_month * (1/10)

/-- `_calculate_industry_specific_costs` (the `total` field): sum of the
per-industry cost dictionary obtained with `.get(industry.lower(), {})`
(unknown industry yields the empty dictionary, total 0). -/
def industry_specific_costs_total (industry : String) (num_agents calls_per_month : ℤ) : ℚ :=
  let key := pyLower industry
  if key = "financial_services" then 2 * calls_per_month + 1000 * num_agents + 500 * num_agents
  else if key = "healthcare" then (3/2) * calls_per_month + 800 * num_agents + 600 * num_agents
  else if key = "real_estate" then 300 * num_agents + 200 * num_agents + 100 * num_agents
  else if key = "technology" then 1200 * num_agents + 400 * num_agents + 300 * num_agents
  else 0

/-- The numeric result dictionary `analyze_total_cost_of_ownership` would
return if it completed. -/
structure TCOResult where
  total_monthly_cost : ℚ
  cost_per_call : ℚ
  deriving DecidableEq

/-- `_get_benchmark_comparison` immediately evaluates
`statistics.percentileofscore(...)`; the Python standard-library `statistics`
module (the one imported at the top of the file) has no attribute
`percentileofscore` (that function lives in `scipy.stats`), so the attribute
lookup raises `AttributeError` before anything else happens. -/
def get_benchmark_comparison (_cost_per_call : ℚ) : Except PyErr Unit :=
  .error .attributeError

/-- `AdvancedCostAnalysisService.analyze_total_cost_of_ownership`.  The return
dictionary is evaluated field by field in source order: `cost_per_call` divides
by `calls_per_month` (raising `ZeroDivisionError` when it is 0), and the
`benchmarks` field then calls `_get_benchmark_comparison`.  No input
validation of any kind is performed. -/
def analyze_total_cost_of_ownership (num_agents calls_per_month : ℤ)
    (avg_agent_salary : ℚ) (industry : String) : Except PyErr TCOResult :=
  let total := direct_costs_total num_agents avg_agent_salary
    + indirect_costs_total num_agents calls_per_month
    + opportunity_costs_total num_agents calls_per_month
    + industry_specific_costs_total industry num_agents calls_per_month
  if calls_per_month = 0 then .error .zeroDivision
  else
    match get_benchmark_comparison (total / calls_per_month) with
    | .error e => .error e
    | .ok _ =>
      .ok { total_monthly_cost := roundTo 2 total,
            cost_per_call := roundTo 2 (total / calls_per_month) }

end AdvancedCost

namespace Subscription

/-! Embedding of `app/services/subscription_service.py` (discount tables and
volume-discount lookup; the contract-terms optimizer follows further below). -/

/-- `self.volume_discounts`: ascending (threshold, discount fraction) pairs. -/
def volume_discounts : List (ℤ × ℚ) :=
  [(50000, 1/20), (100000, 1/10), (250000, 3/20), (500000, 1/5), (1000000, 1/4)]

/-- `self.term_incentives`: ascending (months, discount fraction) pairs. -/
def term_incentives : List (ℤ × ℚ) :=
  [(12, 0), (24, 1/10), (36, 3/20), (48, 1/5), (60, 1/4)]

/-- The lookup loop shared by both discounts in `calculate_volume_discounts`:
iterate the table in list order and `break` at the FIRST entry whose threshold
is ≤ the value; 0 if no entry qualifies. -/
def firstQualifyingDiscount : List (ℤ × ℚ) → ℤ → ℚ
  | [], _ => 0
  | (threshold, d) :: rest, v => if threshold ≤ v then d else firstQualifyingDiscount rest v

/-- The result dictionary of `calculate_volume_discounts`. -/
structure VolumeDiscountResult where
  base_annual_price : ℚ
  discounted_annual_price : ℚ
  volume_discount : ℚ
  term_discount : ℚ
  combined_discount : ℚ
  annual_savings : ℚ
  total_contract_savings : ℚ
  deriving DecidableEq

/-- `SubscriptionService.calculate_volume_discounts`. -/
def calculate_volume_discounts (base_price : ℚ) (annual_call_volume contract_months : ℤ) :
    VolumeDiscountResult :=
  let volume_discount := firstQualifyingDiscount volume_discounts annual_call_volume
  let term_discount := firstQualifyingDiscount term_incentives contract_months
  let combined_discount := 1 - (1 - volume_discount) * (1 - term_discount)
  let base_annual := base_price * 12
  let discounted_annual := base_annual * (1 - combined_discount)
  { base_annual_price := base_annual,
    discounted_annual_price := roundTo 2 discounted_annual,
    volume_discount := volume_discount,
    term_discount := term_discount,
    combined_discount := combined_discount,
    annual_savings := roundTo 2 (base_annual - discounted_annual),
    total_contract_savings := roundTo 2 ((base_annual - discounted_annual) * ((contract_months : ℚ) / 12)) }

end Subscription

namespace Subscription

/-! Embedding of the subscription tiers, industry profiles and
`optimize_contract_terms` of `app/services/subscription_service.py`. -/

/-- The `SubscriptionTier` dataclass of `subscription_service.py`. -/
structure STier where
  name : String
  max_calls : ℤ
  price_per_month : ℚ
  setup_fee : ℚ
  features : List String
  min_term_months : ℤ
  overage_rate : ℚ
  deriving DecidableEq

/-- The `"starter"` entry of `self.subscription_tiers`. -/
def sStarter : STier :=
  { name := "Starter", max_calls := 1000, price_per_month := 450, setup_fee := 1000,
    features := ["AI-powered outbound calls", "Basic analytics dashboard",
      "Standard business hours support", "Basic call scripts"],
    min_term_months := 6, overage_rate := 1/2 }

/-- The `"professional"` entry of `self.subscription_tiers`. -/
def sProfessional : STier :=
  { name := "Professional", max_calls := 5000, price_per_month := 2000, setup_fee := 2500,
    features := ["All Starter features", "24/7 call availability",
      "Advanced analytics and reporting", "Custom call scripts", "Priority support",
      "Call recording and transcription"],
    min_term_months := 12, overage_rate := 9/20 }

/-- The `"enterprise"` entry of `self.subscription_tiers`. -/
def sEnterprise : STier :=
  { name := "Enterprise", max_calls := 10000, price_per_month := 3500, setup_fee := 5000,
    features := ["All Professional features", "Dedicated account manager",
      "Custom AI agent personalities", "API integration", "Advanced customization options",
      "SLA guarantees", "Training and onboarding support"],
    min_term_months := 12, overage_rate := 2/5 }

/-- The `"ultimate"` entry of `self.subscription_tiers` (note
`min_term_months = 24`). -/
def sUltimate : STier :=
  { name := "Ultimate", max_calls := 25000, price_per_month := 7500, setup_fee := 10000,
    features := ["All Enterprise features", "Multi-language support",
      "Custom integration development", "Dedicated development team", "White-label options",
      "Custom analytics development", "Executive quarterly reviews"],
    min_term_months := 24, overage_rate := 7/20 }

/-- `self.subscription_tiers`, in dictionary insertion order. -/
def sub_tiers : List (String × STier) :=
  [("starter", sStarter), ("professional", sProfessional),
   ("enterprise", sEnterprise), ("ultimate", sUltimate)]

/-- The `IndustryProfile` dataclass (`name` holds the `Industry` enum value). -/
structure IndustryProfile where
  name : String
  price_multiplier : ℚ
  compliance_requirements : List String
  average_call_duration : ℤ
  peak_hours : List ℤ
  specialized_features : List String
  cost_multiplier : ℚ
  deriving DecidableEq

/-- `self.industry_profiles[Industry.FINANCIAL]`. -/
def financialProfile : IndustryProfile :=
  { name := "financial", price_multiplier := 13/10,
    compliance_requirements := ["SEC", "FINRA", "BSA/AML", "KYC"],
    average_call_duration := 420, peak_hours := [9, 10, 11, 14, 15],
    specialized_features := ["Compliance recording", "Risk assessment", "Fraud detection",
      "Transaction verification"],
    cost_multiplier := 7/5 }

/-- `self.industry_profiles[Industry.HEALTHCARE]`. -/
def healthcareProfile : IndustryProfile :=
  { name := "healthcare", price_multiplier := 5/4,
    compliance_requirements := ["HIPAA", "HITECH", "PHI Protection"],
    average_call_duration := 360, peak_hours := [8, 9, 10, 14, 15, 16],
    specialized_features := ["PHI handling", "Medical terminology", "Insurance verification",
      "Appointment scheduling"],
    cost_multiplier := 27/20 }

/-- `self.industry_profiles[Industry.REAL_ESTATE]`. -/
def realEstateProfile : IndustryProfile :=
  { name := "real_estate", price_multiplier := 11/10,
    compliance_requirements := ["Fair Housing", "RESPA"],
    average_call_duration := 300, peak_hours := [10, 11, 12, 14, 15, 16, 17],
    specialized_features := ["Property matching", "Scheduling viewings", "Market analysis",
      "Lead scoring"],
    cost_multiplier := 23/20 }

/-- `self.industry_profiles[Industry.TECHNOLOGY]`. -/
def technologyProfile : IndustryProfile :=
  { name := "technology", price_multiplier := 6/5,
    compliance_requirements := ["Data Protection", "GDPR", "CCPA"],
    average_call_duration := 480, peak_hours := [9, 10, 11, 13, 14, 15, 16],
    specialized_features := ["Technical qualification", "Product compatibility",
      "Integration planning", "Technical support"],
    cost_multiplier := 5/4 }

/-- The `Industry[industry.upper()]` + `self.industry_profiles[industry_enum]`
lookup at the top of `optimize_contract_terms`; a `KeyError` from either step
(unknown industry, or an `Industry` member with no profile) is converted to
`ValueError` by the surrounding `try/except`. -/
def lookup_profile (industry : String) : Option IndustryProfile :=
  let key := pyUpper industry
  if key = "FINANCIAL" then some financialProfile
  else if key = "HEALTHCARE" then some healthcareProfile
  else if key = "REAL_ESTATE" then some realEstateProfile
  else if key = "TECHNOLOGY" then some technologyProfile
  else none

/-- The result dictionary of `calculate_subscription_cost`. -/
structure SubCost where
  base_monthly_fee : ℚ
  setup_fee : ℚ
  estimated_monthly_overage : ℚ
  total_monthly_cost : ℚ
  total_contract_value : ℚ
  deriving DecidableEq

/-- `SubscriptionService.calculate_subscription_cost`: `ValueError` for an
unknown tier name (after `.lower()`) or a duration below the tier's minimum
term; overage is `max(0, estimated_calls - tier.max_calls)` at
`tier.overage_rate` per call. -/
def calculate_subscription_cost (tier_name : String) (duration_months estimated_calls : ℤ) :
    Except PyErr SubCost :=
  match (sub_tiers.find? (fun p => p.1 = pyLower tier_name)).map Prod.snd with
  | none => .error .valueError
  | some tier =>
    if duration_months < tier.min_term_months then .error .valueError
    else
      let base_monthly := tier.price_per_month
      let monthly_overage := max 0 (estimated_calls - tier.max_calls)
      let overage_cost := monthly_overage * tier.overage_rate
      .ok { base_monthly_fee := base_monthly,
            setup_fee := tier.setup_fee,
            estimated_monthly_overage := overage_cost,
            total_monthly_cost := base_monthly + overage_cost,
            total_contract_value := (base_monthly + overage_cost) * duration_months + tier.setup_fee }

/-- `monthly_cost = float(tier.price_per_month) * (1 - combined_discount)` for
a `(tier, term)` candidate in `optimize_contract_terms`, where the combined
discount comes from `calculate_volume_discounts(tier.price_per_month,
estimated_calls * 12, term_months)`. -/
def candidate_monthly_cost (estimated_calls : ℤ) (c : STier × ℤ) : ℚ :=
  c.1.price_per_month *
    (1 - (calculate_volume_discounts c.1.price_per_month (estimated_calls * 12) c.2).combined_discount)

/-- `total_cost = monthly_cost * term_months + float(tier.setup_fee)` for a
candidate in `optimize_contract_terms`. -/
def candidate_total_cost (estimated_calls : ℤ) (c : STier × ℤ) : ℚ :=
  candidate_monthly_cost estimated_calls c * c.2 + c.1.setup_fee

/-- `SubscriptionService._calculate_value_score`: feature count × 10 +
`log(term) × 5` + volume efficiency (`min(1, max_calls/estimated_calls) × 20`)
+ industry alignment (features appearing verbatim among the profile's
specialized features, × 15) + inverse cost factor (`1000/monthly_cost × 10`). -/
noncomputable def calculate_value_score (tier : STier) (term_months : ℤ)
    (estimated_calls : ℤ) (profile : IndustryProfile) (monthly_cost : ℚ) : ℝ :=
  (tier.features.length : ℝ) * 10
    + Real.log (term_months : ℝ) * 5
    + min 1 ((tier.max_calls : ℝ) / (estimated_calls : ℝ)) * 20
    + (tier.features.countP (fun f => profile.specialized_features.contains f) : ℝ) * 15
    + 1000 / (monthly_cost : ℝ) * 10

/-- The value score of a `(tier, term)` candidate in `optimize_contract_terms`. -/
noncomputable def candidate_value_score (estimated_calls : ℤ) (profile : IndustryProfile)
    (c : STier × ℤ) : ℝ :=
  calculate_value_score c.1 c.2 estimated_calls profile (candidate_monthly_cost estimated_calls c)

/-- The Python truthiness test `if budget_constraint and total_cost >
budget_constraint: continue`: a candidate is skipped only when the budget is
present AND nonzero (0 and `None` are both falsy) AND the total cost exceeds it. -/
def candidate_skipped (estimated_calls : ℤ) (budget_constraint : Option ℚ)
    (c : STier × ℤ) : Prop :=
  match budget_constraint with
  | none => False
  | some b => ¬b = 0 ∧ b < candidate_total_cost estimated_calls c

/-- The mutable optimizer state `(optimal_tier+optimal_term, min_cost,
best_value)`; `min_cost` starts at `float('inf')`, modelled by `⊤`. -/
structure OptState where
  best : Option (STier × ℤ)
  min_cost : WithTop ℚ
  best_value : ℝ

open Classical

/-- One iteration of the nested loops of `optimize_contract_terms`: skip the
candidate when the budget test fires, otherwise adopt it when
`value_score > best_value` or (`value_score == best_value` and
`total_cost < min_cost`). -/
noncomputable def optStep (estimated_calls : ℤ) (budget_constraint : Option ℚ)
    (profile : IndustryProfile) (s : OptState) (c : STier × ℤ) : OptState :=
  if candidate_skipped estimated_calls budget_constraint c then s
  else if candidate_value_score estimated_calls profile c > s.best_value
      ∨ (candidate_value_score estimated_calls profile c = s.best_value
          ∧ (candidate_total_cost estimated_calls c : WithTop ℚ) < s.min_cost) then
    { best := some c,
      min_cost := (candidate_total_cost estimated_calls c : WithTop ℚ),
      best_value := candidate_value_score estimated_calls profile c }
  else s

/-- The candidate enumeration order of the nested loops: tiers in dictionary
insertion order, and for each tier the five contract terms of
`self.term_incentives` in ascending order. -/
def optimizer_candidates : List (STier × ℤ) :=
  (sub_tiers.map Prod.snd).flatMap (fun t => term_incentives.map (fun p => (t, p.1)))

/-- The result dictionary of a successful `optimize_contract_terms` run. -/
structure OptResult where
  recommended_tier : String
  recommended_term : ℤ
  monthly_cost : ℚ
  total_contract_value : ℚ
  value_score : ℝ
  cost_breakdown : SubCost
  features : List String
  roi_period_months : ℤ

/-- Outcome of `optimize_contract_terms`: the infeasibility dictionary
(`\x7b"error": "No suitable configuration found within constraints"\x7d`), a
configuration, or a raised Python exception. -/
inductive OptimizeOutcome where
  | infeasible
  | config (r : OptResult)
  | err (e : PyErr)

/-- `SubscriptionService.optimize_contract_terms`.  After the loops, if no
candidate was adopted the infeasibility dictionary is returned; otherwise the
final costs are recomputed by `calculate_subscription_cost(optimal_tier.name,
optimal_term, estimated_calls)` — which can itself raise `ValueError` when the
adopted term is below the adopted tier's `min_term_months`.  When a candidate
was adopted, `min_cost` is finite, so the `WithTop.untop' 0` extraction is
exact; `_calculate_roi_period` is `ceil(total_cost / monthly_savings)` with
`monthly_savings = estimated_calls × (8 × cost_multiplier − 0.5)` (nonzero for
every positive call volume, the only case settled here). -/
noncomputable def optimize_contract_terms (estimated_calls : ℤ) (industry : String)
    (budget_constraint : Option ℚ) : OptimizeOutcome :=
  match lookup_profile industry with
  | none => .err .valueError
  | some profile =>
    let final := optimizer_candidates.foldl
      (optStep estimated_calls budget_constraint profile) ⟨none, ⊤, 0⟩
    match final.best with
    | none => .infeasible
    | some (tier, term) =>
      match calculate_subscription_cost tier.name term estimated_calls with
      | .error e => .err e
      | .ok costs =>
        let min_cost : ℚ := WithTop.untop' 0 final.min_cost
        .config
          { recommended_tier := tier.name,
            recommended_term := term,
            monthly_cost := roundTo 2 (min_cost / term),
            total_contract_value := roundTo 2 min_cost,
            value_score := roundToR 2 final.best_value,
            cost_breakdown := costs,
            features := tier.features,
            roi_period_months := ⌈min_cost / (estimated_calls * (8 * profile.cost_multiplier - 1/2))⌉ }

/-- Projection: the `total_contract_value` of a returned configuration. -/
def outcome_total : OptimizeOutcome → Option ℚ
  | .config r => some r.total_contract_value
  | _ => none

/-- Projection: the `recommended_tier` of a returned configuration. -/
def outcome_tier : OptimizeOutcome → Option String
  | .config r => some r.recommended_tier
  | _ => none

end Subscription

namespace MarketPen

/-! Embedding of `app/services/market_penetration.py`. -/

/-- The `MarketConditions` dataclass (all fields on a 0-1 scale). -/
structure MarketConditions where
  economic_growth : ℚ
  industry_growth : ℚ
  technology_adoption_rate : ℚ
  regulatory_environment : ℚ
  market_consolidation : ℚ
  deriving DecidableEq

/-- The `PenetrationFactors` dataclass. -/
structure PenetrationFactors where
  price_sensitivity : ℚ
  technology_readiness : ℚ
  regulatory_compliance : ℚ
  decision_cycle : ℤ
  integration_complexity : ℚ
  deriving DecidableEq

/-- The `CompetitorData` dataclass. -/
structure CompetitorData where
  name : String
  market_share : ℚ
  growth_rate : ℚ
  pricing_tier : String
  customer_satisfaction : ℚ
  churn_rate : ℚ
  deriving DecidableEq

/-- `self.industry_adoption_speeds.get(industry.upper(), 1.0)`. -/
def industry_adoption_speed (industry : String) : ℚ :=
  let key := pyUpper industry
  if key = "FINANCIAL" then 6/5
  else if key = "HEALTHCARE" then 4/5
  else if key = "REAL_ESTATE" then 1
  else if key = "TECHNOLOGY" then 3/2
  else if key = "RETAIL" then 11/10
  else if key = "MANUFACTURING" then 9/10
  else if key = "EDUCATION" then 7/10
  else if key = "PROFESSIONAL_SERVICES" then 13/10
  else 1

/-- The `market_impact` weighted sum in `_calculate_base_penetration_rate`. -/
def market_impact (mc : MarketConditions) : ℚ :=
  mc.economic_growth * (1/5) + mc.industry_growth * (3/10)
    + mc.technology_adoption_rate * (3/10) + mc.regulatory_environment * (1/10)
    + (1 - mc.market_consolidation) * (1/10)

/-- `competitive_pressure = sum(c.market_share for c in competitors)`. -/
def competitive_pressure (competitors : List CompetitorData) : ℚ :=
  (competitors.map (·.market_share)).sum

/-- `competitive_impact = 1 - (competitive_pressure * 0.7)`. -/
def competitive_impact (competitors : List CompetitorData) : ℚ :=
  1 - competitive_pressure competitors * (7/10)

/-- The `factor_impact` weighted sum in `_calculate_base_penetration_rate`. -/
def factor_impact (f : PenetrationFactors) : ℚ :=
  (1 - f.price_sensitivity) * (3/10) + f.technology_readiness * (3/10)
    + f.regulatory_compliance * (1/5) + (1 - f.integration_complexity) * (1/5)

/-- `_calculate_base_penetration_rate`: `0.3 × market × competitive × factor`,
clamped into [0.05, 0.8] by `min(0.8, max(0.05, base_rate))`. -/
def calculate_base_penetration_rate (mc : MarketConditions)
    (competitors : List CompetitorData) (f : PenetrationFactors) : ℚ :=
  min (4/5) (max (1/20) (3/10 * market_impact mc * competitive_impact competitors * factor_impact f))

/-- The loop body of `_generate_penetration_curve`: at each month,
`adoption = base_rate × ((p + q × cumulative) × (1 − cumulative))` with
`p = 0.03 × industry_speed`, `q = 0.4 × industry_speed`, and the adoption is
added to `cumulative` before the next month. -/
def generate_penetration_curve_aux (base_rate industry_speed : ℚ) :
    ℕ → ℚ → List ℚ
  | 0, _ => []
  | n + 1, cumulative =>
    let p := 3/100 * industry_speed
    let q := 2/5 * industry_speed
    let adoption := base_rate * ((p + q * cumulative) * (1 - cumulative))
    adoption :: generate_penetration_curve_aux base_rate industry_speed n (cumulative + adoption)

/-- `_generate_penetration_curve` (cumulative starts at 0). -/
def generate_penetration_curve (base_rate industry_speed : ℚ) (timeframe_months : ℕ) : List ℚ :=
  generate_penetration_curve_aux base_rate industry_speed timeframe_months 0

/-- `self.adoption_curves`: the five canonical segment percentages, in
dictionary insertion order. -/
def adoption_curves : List (String × ℚ) :=
  [("innovators", 1/40), ("early_adopters", 27/200), ("early_majority", 17/50),
   ("late_majority", 17/50), ("laggards", 4/25)]

/-- The `phases` dictionary of `_calculate_adoption_phases` (a recorded
transition month for each of the five canonical phases, `none` = Python `None`). -/
structure AdoptionPhases where
  innovators : Option ℕ
  early_adopters : Option ℕ
  early_majority : Option ℕ
  late_majority : Option ℕ
  laggards : Option ℕ
  deriving DecidableEq

/-- The inner loop of `_calculate_adoption_phases`: for each phase, if it is
still unset and `cumulative >= threshold` (the phase's entry in
`adoption_curves`, used directly, NOT accumulated), record `month + 1`. -/
def updatePhases (cumulative : ℚ) (month : ℕ) (ph : AdoptionPhases) : AdoptionPhases :=
  { innovators := if ph.innovators = none ∧ 1/40 ≤ cumulative then some (month + 1) else ph.innovators,
    early_adopters := if ph.early_adopters = none ∧ 27/200 ≤ cumulative then some (month + 1) else ph.early_adopters,
    early_majority := if ph.early_majority = none ∧ 17/50 ≤ cumulative then some (month + 1) else ph.early_majority,
    late_majority := if ph.late_majority = none ∧ 17/50 ≤ cumulative then some (month + 1) else ph.late_majority,
    laggards := if ph.laggards = none ∧ 4/25 ≤ cumulative then some (month + 1) else ph.laggards }

/-- The outer loop of `_calculate_adoption_phases`: walk the curve accumulating
penetration, updating every phase at every month. -/
def calculate_adoption_phases_aux : List ℚ → ℚ → ℕ → AdoptionPhases → AdoptionPhases
  | [], _, _, ph => ph
  | rate :: rest, cumulative, month, ph =>
    let c := cumulative + rate
    calculate_adoption_phases_aux rest c (month + 1) (updatePhases c month ph)

/-- `_calculate_adoption_phases` (the `phase_transitions` part of its result). -/
def calculate_adoption_phases (penetration_curve : List ℚ) : AdoptionPhases :=
  calculate_adoption_phases_aux penetration_curve 0 0 ⟨none, none, none, none, none⟩

/-- `_determine_current_phase`: note that, unlike `_calculate_adoption_phases`,
this sibling function ACCUMULATES the segment percentages while scanning
(`cumulative += threshold`), treating them as increments of cumulative phase
boundaries. -/
def determine_current_phase_aux : List (String × ℚ) → ℚ → ℚ → String
  | [], _, _ => "laggards"
  | (phase, threshold) :: rest, cumulative, x =>
    let c := cumulative + threshold
    if x ≤ c then phase else determine_current_phase_aux rest c x

/-- `_determine_current_phase` (default: the last phase of the table). -/
def determine_current_phase (cumulative_penetration : ℚ) : String :=
  determine_current_phase_aux adoption_curves 0 cumulative_penetration

/-- The result dictionary of `_analyze_competitor_impact`.  The scalar fields
are exact rationals; `monthly_impact` is real-valued because the source raises
`(1 + weighted_growth)` to the fractional power `m / 12`. -/
structure CompetitorImpact where
  market_concentration : ℚ
  growth_trajectory : ℚ
  satisfaction_gap : ℚ
  churn_opportunity : ℚ
  monthly_impact : List ℝ

/-- `avg_satisfaction` of `_analyze_competitor_impact`: the market-share
weighted average of customer satisfaction, divided by the total market share
only when that share is `> 0`, else defaulted to 0. -/
def avg_satisfaction (competitors : List CompetitorData) : ℚ :=
  let total := (competitors.map (·.market_share)).sum
  if 0 < total then (competitors.map (fun c => c.customer_satisfaction * c.market_share)).sum / total
  else 0

/-- `_analyze_competitor_impact`.  `monthly_impact` models
`round(churn_opportunity * (1 + weighted_growth) ** (m/12), 4)` for
`m in range(timeframe_months)` (real power; for the inputs settled here the
base is ≥ 1, where Python `**` and `Real.rpow` agree). -/
noncomputable def analyze_competitor_impact (competitors : List CompetitorData)
    (timeframe_months : ℕ) : CompetitorImpact :=
  let total_market_share := (competitors.map (·.market_share)).sum
  let weighted_growth := (competitors.map (fun c => c.market_share * c.growth_rate)).sum
  let churn_opportunity := (competitors.map (fun c => c.market_share * c.churn_rate)).sum
  { market_concentration := total_market_share,
    growth_trajectory := weighted_growth,
    satisfaction_gap := 1 - avg_satisfaction competitors,
    churn_opportunity := churn_opportunity,
    monthly_impact := (List.range timeframe_months).map (fun (m : ℕ) =>
      roundToR 4 ((churn_opportunity : ℝ) * ((1 + (weighted_growth : ℝ)) ^ ((m : ℝ) / 12)))) }

/-- The `conversion_probabilities` dictionary consumed by
`_calculate_opportunity_score`. -/
structure ConversionProbs where
  initial_contact : ℚ
  demo_booking : ℚ
  demo_completion : ℚ
  proposal_acceptance : ℚ
  contract_signing : ℚ
  deriving DecidableEq

/-- The `market_score` of `_calculate_opportunity_score` (the source comment
says 0-100): `(economic×20 + industry×30 + technology×30 + regulatory×20) × 100`. -/
def market_conditions_score (mc : MarketConditions) : ℚ :=
  (mc.economic_growth * 20 + mc.industry_growth * 30
    + mc.technology_adoption_rate * 30 + mc.regulatory_environment * 20) * 100

/-- The `competitive_score` of `_calculate_opportunity_score` (source comment
says 0-100): `(satisfaction_gap×40 + churn_opportunity×60) × 100`. -/
def competitive_opportunity_score (satisfaction_gap churn_opportunity : ℚ) : ℚ :=
  (satisfaction_gap * 40 + churn_opportunity * 60) * 100

/-- The `conversion_score` of `_calculate_opportunity_score` (source comment
says 0-100): `(initial_contact×20 + demo_completion×30 + contract_signing×50) × 100`. -/
def conversion_potential_score (probs : ConversionProbs) : ℚ :=
  (probs.initial_contact * 20 + probs.demo_completion * 30 + probs.contract_signing * 50) * 100

/-- `_calculate_opportunity_score`: the weighted blend
`market×0.4 + competitive×0.3 + conversion×0.3`, rounded to 1 decimal. -/
def calculate_opportunity_score (mc : MarketConditions)
    (satisfaction_gap churn_opportunity : ℚ) (probs : ConversionProbs) : ℚ :=
  roundTo 1 (market_conditions_score mc * (2/5)
    + competitive_opportunity_score satisfaction_gap churn_opportunity * (3/10)
    + conversion_potential_score probs * (3/10))

end MarketPen

namespace RoiCalc

/-! Embedding of `app/services/roi_calculator.py` (`_project_cash_flows`). -/

/-- The result dictionary of `_project_cash_flows`. -/
structure CashFlows where
  monthly : List ℚ
  cumulative : ℚ
  break_even : Option ℕ
  deriving DecidableEq

/-- The `for month in range(1, 61)` loop of `_project_cash_flows`, as a
recursion over the remaining number of iterations: each month adds the
(constant) net flow to the cumulative total, appends the rounded net flow, and
records the loop's month index the first time the cumulative total is `> 0`
(the `break_even_month is None` guard means it is never reassigned). -/
def project_aux (net : ℚ) : ℕ → ℕ → ℚ → Option ℕ → List ℚ × ℚ × Option ℕ
  | 0, _, cumulative, break_even => ([], cumulative, break_even)
  | n + 1, month, cumulative, break_even =>
    let c := cumulative + net
    let be := if break_even = none ∧ 0 < c then some month else break_even
    let rest := project_aux net n (month + 1) c be
    (roundTo 2 net :: rest.1, rest.2.1, rest.2.2)

/-- `_project_cash_flows`: `monthly_benefit` is the sum of the three benefit
streams' `monthly` fields, the net flow is `monthly_benefit - monthly_cost`,
the cumulative total is seeded at `-setup_cost`, and the horizon is 60 months. -/
def project_cash_flows (base_monthly operational_monthly industry_monthly
    setup_cost monthly_cost : ℚ) : CashFlows :=
  let monthly_benefit := base_monthly + operational_monthly + industry_monthly
  let net := monthly_benefit - monthly_cost
  let res := project_aux net 60 1 (-setup_cost) none
  { monthly := res.1, cumulative := roundTo 2 res.2.1, break_even := res.2.2 }

end RoiCalc

/-! Helper lemmas about Python's `min(..., key=...)` as modelled by
`CostAnalysis.minByPrice`. -/

namespace CostAnalysis

lemma minByPrice_le_head (b : Tier) (l : List Tier) :
    (minByPrice b l).price_per_month ≤ b.price_per_month := by
  induction l generalizing b with
  | nil => exact le_refl _
  | cons t rest ih =>
    simp only [minByPrice]
    refine le_trans (ih _) ?_
    by_cases h : t.price_per_month < b.price_per_month
    · simp [h, le_of_lt h]
    · simp [h]

lemma minByPrice_mem (b : Tier) (l : List Tier) : minByPrice b l ∈ b :: l := by
  induction l generalizing b with
  | nil => simp [minByPrice]
  | cons t rest ih =>
    simp only [minByPrice]
    by_cases h : t.price_per_month < b.price_per_month
    · simp only [h, if_true]
      exact List.mem_cons_of_mem _ (ih t)
    · simp only [h, if_false]
      rcases List.mem_cons.mp (ih b) with h1 | h1
      · rw [h1]
        exact List.mem_cons_self _ _
      · exact List.mem_cons_of_mem _ (List.mem_cons_of_mem _ h1)

lemma minByPrice_le (b : Tier) (l : List Tier) :
    ∀ t ∈ b :: l, (minByPrice b l).price_per_month ≤ t.price_per_month := by
  induction l generalizing b with
  | nil =>
    intro t ht
    rcases List.mem_cons.mp ht with rfl | h
    · exact le_refl _
    · simp at h
  | cons hd rest ih =>
    intro t ht
    simp only [minByPrice]
    have hb : (if hd.price_per_month < b.price_per_month then hd else b).price_per_month
        ≤ b.price_per_month := by
      by_cases h : hd.price_per_month < b.price_per_month
      · simp [h, le_of_lt h]
      · simp [h]
    have hhd : (if hd.price_per_month < b.price_per_month then hd else b).price_per_month
        ≤ hd.price_per_month := by
      by_cases h : hd.price_per_month < b.price_per_month
      · simp [h]
      · simp [h, not_lt.mp h]
    rcases List.mem_cons.mp ht with rfl | ht2
    · exact le_trans (minByPrice_le_head _ _) hb
    · rcases List.mem_cons.mp ht2 with rfl | ht3
      · exact le_trans (minByPrice_le_head _ _) hhd
      · exact ih _ _ (List.mem_cons_of_mem _ ht3)

lemma minByPrice_find (b : Tier) (l : List Tier) :
    (b :: l).find? (fun t => decide (t.price_per_month = (minByPrice b l).price_per_month))
      = some (minByPrice b l) := by
  induction l generalizing b with
  | nil => simp [minByPrice, List.find?]
  | cons t rest ih =>
    by_cases h : t.price_per_month < b.price_per_month
    · have hbody : minByPrice b (t :: rest) = minByPrice t rest := by
        simp [minByPrice, h]
      rw [hbody]
      have hlt : (minByPrice t rest).price_per_month < b.price_per_month :=
        lt_of_le_of_lt (minByPrice_le_head t rest) h
      rw [List.find?_cons_of_neg _ (by simpa using ne_of_gt hlt)]
      exact ih t
    · have hbody : minByPrice b (t :: rest) = minByPrice b rest := by
        simp [minByPrice, h]
      rw [hbody]
      by_cases hb : b.price_per_month = (minByPrice b rest).price_per_month
      · rw [List.find?_cons_of_pos _ (by simpa using hb)]
        have hih := ih b
        rw [List.find?_cons_of_pos _ (by simpa using hb)] at hih
        exact hih
      · have hlt : (minByPrice b rest).price_per_month < b.price_per_month :=
          lt_of_le_of_ne (minByPrice_le_head b rest) (fun he => hb he.symm)
        have hnt : ¬ t.price_per_month = (minByPrice b rest).price_per_month :=
          ne_of_gt (lt_of_lt_of_le hlt (not_lt.mp h))
        have hih := ih b
        rw [List.find?_cons_of_neg _ (by simpa using hb)] at hih
        rw [List.find?_cons_of_neg _ (by simpa using hb),
          List.find?_cons_of_neg _ (by simpa using hnt)]
        exact hih

end CostAnalysis

namespace Subscription

/-- C1: at an annual volume of 1,000,000 calls and a 60-month term — where the
claim requires the highest-qualifying-threshold discounts 25% / 25% — the
lookup loop of `calculate_volume_discounts` breaks at the FIRST (lowest)
qualifying threshold of each ascending table, returning the 5% volume discount
and the 0% term discount. -/
theorem calculate_volume_discounts_picks_lowest_threshold :
    (calculate_volume_discounts 1000 1000000 60).volume_discount = 1/20
    ∧ (calculate_volume_discounts 1000 1000000 60).term_discount = 0
    ∧ (1/20 : ℚ) ≠ 1/4 := by
  refine ⟨?_, ?_, by norm_num⟩ <;>
    norm_num [calculate_volume_discounts, firstQualifyingDiscount, volume_discounts,
      term_incentives]

end Subscription

namespace MarketPen

/-- C3: `_calculate_adoption_phases` compares the accumulated penetration
against the INDEPENDENT segment percentages of `adoption_curves`, not against
the accumulated canonical thresholds.  On the one-month curve `[0.2]` it
records the laggards transition at month 1 (20% ≥ the 16% laggards segment)
even though the early- and late-majority transitions (34% segments) are never
recorded, so the recorded transitions are not non-decreasing in canonical
order and laggards fire far below the claimed 100% cumulative threshold.  The
sibling `_determine_current_phase`, which does accumulate the same table,
places a 20% cumulative penetration only in the early-majority phase. -/
theorem calculate_adoption_phases_uses_independent_thresholds :
    calculate_adoption_phases [1/5] =
      { innovators := some 1, early_adopters := some 1, early_majority := none,
        late_majority := none, laggards := some 1 }
    ∧ determine_current_phase (1/5) = "early_majority" := by
  constructor
  · norm_num [calculate_adoption_phases, calculate_adoption_phases_aux, updatePhases]
  · norm_num [determine_current_phase, determine_current_phase_aux, adoption_curves]

/-- C7: with every market-conditions field at 1 (all within the claimed [0,1]
ranges), the `market_score` of `_calculate_opportunity_score` evaluates to
10,000 — not a value in [0,100] — because the weighted sum (whose weights
already total 100) is multiplied by a further factor of 100; with a
satisfaction gap of 1, a churn opportunity of 1 and all conversion
probabilities 0, the overall 40/30/30 blend is 7,000, also far outside
[0,100]. -/
theorem opportunity_subscore_exceeds_100 :
    market_conditions_score ⟨1, 1, 1, 1, 1⟩ = 10000
    ∧ ¬ market_conditions_score ⟨1, 1, 1, 1, 1⟩ ≤ 100
    ∧ calculate_opportunity_score ⟨1, 1, 1, 1, 1⟩ 1 1 ⟨0, 0, 0, 0, 0⟩ = 7000 := by
  refine ⟨?_, ?_, ?_⟩ <;>
    norm_num [calculate_opportunity_score, market_conditions_score,
      competitive_opportunity_score, conversion_potential_score, roundTo, round_eq]

end MarketPen

namespace AdvancedCost

/-- C4 (amended): `analyze_total_cost_of_ownership` performs no input
validation and never returns: for `calls_per_month = 0` it raises an uncaught
`ZeroDivisionError` while computing `cost_per_call`, and for every other input
(negative values included) it raises an uncaught `AttributeError`, because the
`benchmarks` field calls `statistics.percentileofscore`, which does not exist
in the standard-library `statistics` module. -/
theorem analyze_total_cost_of_ownership_always_raises (num_agents calls_per_month : ℤ)
    (avg_agent_salary : ℚ) (industry : String) :
    analyze_total_cost_of_ownership num_agents calls_per_month avg_agent_salary industry
      = .error (if calls_per_month = 0 then PyErr.zeroDivision else PyErr.attributeError) := by
  by_cases hc : calls_per_month = 0 <;>
    simp [analyze_total_cost_of_ownership, get_benchmark_comparison, hc]

/-- C4 (counterexample): at the negative input `num_agents = -1` (with 100
calls, a 35,000 salary and the technology industry) the function raises
`AttributeError` — an untyped runtime exception — not the typed
`InvalidArgument` failure the claim requires for negative inputs. -/
theorem analyze_total_cost_of_ownership_negative_input_counterexample :
    analyze_total_cost_of_ownership (-1) 100 35000 "technology" = .error .attributeError
    ∧ PyErr.attributeError ≠ PyErr.invalidArgument := by
  refine ⟨?_, by decide⟩
  norm_num [analyze_total_cost_of_ownership, get_benchmark_comparison]

end AdvancedCost

namespace CostAnalysis

/-- C9 (amended): `recommend_subscription` returns the custom-enterprise
sentinel, without raising, whenever no catalog tier covers the call volume;
and whenever it returns a recommendation (which requires
`current_monthly_cost ≠ 0` — at cost 0 the qualifying branch raises
`ZeroDivisionError` computing `cost_reduction_percentage`), the recommended
tier is a qualifying tier of minimal `price_per_month`, and it is the FIRST
tier of the catalog attaining that minimum (Python `min` keeps the first
minimal element); moreover for a nonzero cost and a qualifying tier a
recommendation is always produced. -/
theorem recommend_subscription_min_price_or_sentinel (calls : ℤ) (cost : ℚ) :
    ((∀ t ∈ subscription_tiers, t.max_calls < calls) →
      recommend_subscription calls cost = .ok .custom)
    ∧ (cost ≠ 0 → ∀ r, recommend_subscription calls cost = .ok (.found r) →
        r.recommendation ∈ suitable_tiers calls
        ∧ (∀ t ∈ suitable_tiers calls, r.recommendation.price_per_month ≤ t.price_per_month)
        ∧ (suitable_tiers calls).find?
            (fun t => decide (t.price_per_month = r.recommendation.price_per_month))
            = some r.recommendation)
    ∧ (cost ≠ 0 → (∃ t ∈ subscription_tiers, calls ≤ t.max_calls) →
        ∃ r, recommend_subscription calls cost = .ok (.found r)) := by
  refine ⟨?_, ?_, ?_⟩
  · intro h
    have hnil : suitable_tiers calls = [] := by
      refine List.filter_eq_nil_iff.mpr ?_
      intro t ht
      simpa using not_le.mpr (h t ht)
    simp [recommend_subscription, hnil]
  · intro hc r hr
    rcases hsuit : suitable_tiers calls with _ | ⟨t, rest⟩
    · simp [recommend_subscription, hsuit] at hr
    · simp only [recommend_subscription, hsuit, if_neg hc] at hr
      simp only [Except.ok.injEq, RecOutcome.found.injEq] at hr
      subst hr
      exact ⟨minByPrice_mem t rest, minByPrice_le t rest, minByPrice_find t rest⟩
  · intro hc hex
    rcases hsuit : suitable_tiers calls with _ | ⟨t, rest⟩
    · exfalso
      obtain ⟨t, ht, hle⟩ := hex
      have := List.filter_eq_nil_iff.mp hsuit t ht
      simp at this
      exact absurd hle (not_le.mpr this)
    · simp only [recommend_subscription, hsuit, if_neg hc]
      exact ⟨_, rfl⟩

/-- Witness for C9's amended theorem at `calls = 500`, `cost = 400`: every
tier qualifies, and the recommendation is the Starter tier — the first
minimal-price qualifying tier. -/
theorem recommend_subscription_min_price_or_sentinel_witness :
    starterTier ∈ suitable_tiers 500
    ∧ (∀ t ∈ suitable_tiers 500, starterTier.price_per_month ≤ t.price_per_month)
    ∧ (suitable_tiers 500).find?
        (fun t => decide (t.price_per_month = starterTier.price_per_month))
        = some starterTier :=
  (recommend_subscription_min_price_or_sentinel 500 400).2.1 (by norm_num)
    { recommendation := starterTier, monthly_savings := -50, annual_savings := -600,
      roi_months := 0, cost_reduction_percentage := -25/2 }
    (by norm_num [recommend_subscription, suitable_tiers, subscription_tiers, starterTier,
      professionalTier, enterpriseTier, ultimateTier, minByPrice, List.filter, roundTo,
      round_eq])

/-- C9 (counterexample): with `calls = 500` (so tiers qualify) and
`current_monthly_cost = 0`, the qualifying branch of `recommend_subscription`
raises `ZeroDivisionError` computing `cost_reduction_percentage` instead of
returning the minimum-price qualifying tier. -/
theorem recommend_subscription_zero_cost_counterexample :
    recommend_subscription 500 0 = .error .zeroDivision := by
  norm_num [recommend_subscription, suitable_tiers, subscription_tiers, starterTier,
    professionalTier, enterpriseTier, ultimateTier, minByPrice, List.filter]

/-- C5 (amended): whenever `recommend_subscription` returns a recommendation
whose monthly savings (`current_monthly_cost` minus the recommended tier's
`price_per_month`) are non-positive, the reported `roi_months` is the sentinel
value 0 — not a negative or garbage number, but also not the undefined/∞
marker the claim requires. -/
theorem roi_months_zero_of_nonpositive_savings (calls : ℤ) (cost : ℚ) (r : Recommendation)
    (h : recommend_subscription calls cost = .ok (.found r))
    (hs : cost - r.recommendation.price_per_month ≤ 0) : r.roi_months = 0 := by
  rcases hsuit : suitable_tiers calls with _ | ⟨t, rest⟩
  · simp [recommend_subscription, hsuit] at h
  · by_cases hc : cost = 0
    · simp [recommend_subscription, hsuit, hc] at h
    · simp only [recommend_subscription, hsuit, if_neg hc] at h
      simp only [Except.ok.injEq, RecOutcome.found.injEq] at h
      subst h
      simp only at hs ⊢
      rw [if_neg (not_lt.mpr hs)]
      simp [roundTo]

/-- Witness for C5's amended theorem at `calls = 500`, `cost = 400`: the
Starter tier is recommended, the savings `400 − 450 = −50` are non-positive,
and the reported `roi_months` is 0. -/
theorem roi_months_zero_of_nonpositive_savings_witness :
    ({ recommendation := starterTier, monthly_savings := -50, annual_savings := -600,
       roi_months := 0, cost_reduction_percentage := -25/2 } : Recommendation).roi_months = 0 :=
  roi_months_zero_of_nonpositive_savings 500 400 _
    (by norm_num [recommend_subscription, suitable_tiers, subscription_tiers, starterTier,
      professionalTier, enterpriseTier, ultimateTier, minByPrice, List.filter, roundTo,
      round_eq])
    (by norm_num [starterTier])

/-- C5 (counterexample): at `calls = 500`, `cost = 400` the recommended tier
is Starter with monthly savings `−50 ≤ 0`, and the recommender reports
`roi_months = 0` — a finite numeric value (precisely the value 0 the claim
forbids), not an undefined/infinite marker. -/
theorem roi_months_zero_counterexample :
    recommend_subscription 500 400 = .ok (.found
      { recommendation := starterTier, monthly_savings := -50, annual_savings := -600,
        roi_months := 0, cost_reduction_percentage := -25/2 })
    ∧ (400 : ℚ) - starterTier.price_per_month ≤ 0 := by
  constructor
  · norm_num [recommend_subscription, suitable_tiers, subscription_tiers, starterTier,
      professionalTier, enterpriseTier, ultimateTier, minByPrice, List.filter, roundTo,
      round_eq]
  · norm_num [starterTier]

end CostAnalysis

namespace RoiCalc

lemma project_aux_flows (net : ℚ) :
    ∀ (n month : ℕ) (cum : ℚ) (be : Option ℕ),
      (project_aux net n month cum be).1 = List.replicate n (roundTo 2 net)
      ∧ (project_aux net n month cum be).2.1 = cum + n * net := by
  intro n
  induction n with
  | zero =>
    intro month cum be
    simp [project_aux]
  | succ n ih =>
    intro month cum be
    simp only [project_aux]
    refine ⟨?_, ?_⟩
    · rw [List.replicate_succ]
      simp [(ih (month + 1) _ _).1]
    · rw [(ih (month + 1) (cum + net) _).2]
      push_cast
      ring

lemma proj22_cons (a : ℚ) (t : List ℚ × ℚ × Option ℕ) :
    ((a :: t.1, t.2.1, t.2.2) : List ℚ × ℚ × Option ℕ).2.2 = t.2.2 := rfl

lemma project_aux_some (net : ℚ) :
    ∀ (n month : ℕ) (cum : ℚ) (m : ℕ),
      (project_aux net n month cum (some m)).2.2 = some m := by
  intro n
  induction n with
  | zero => intro month cum m; simp [project_aux]
  | succ n ih =>
    intro month cum m
    simp only [project_aux]
    simpa using ih (month + 1) (cum + net) m

lemma project_aux_none_iff (net : ℚ) :
    ∀ (n month : ℕ) (cum : ℚ),
      (project_aux net n month cum none).2.2 = none
        ↔ ∀ j : ℕ, 1 ≤ j → j ≤ n → cum + j * net ≤ 0 := by
  intro n
  induction n with
  | zero =>
    intro month cum
    simp only [project_aux]
    constructor
    · intro _ j h1 h2
      exact absurd (h1.trans h2) (by norm_num)
    · intro _
      trivial
  | succ n ih =>
    intro month cum
    simp only [project_aux]
    by_cases h : (0 : ℚ) < cum + net
    · refine iff_of_false ?_ ?_
      · rw [if_pos ⟨trivial, h⟩, project_aux_some]
        simp
      · intro hall
        have h1 := hall 1 le_rfl (by omega)
        push_cast at h1
        linarith
    · rw [if_neg (by simp [h])]
      rw [ih (month + 1) (cum + net)]
      constructor
      · intro hall j h1 h2
        rcases Nat.exists_eq_add_of_le h1 with ⟨j2, rfl⟩
        rcases Nat.eq_zero_or_pos j2 with rfl | hj2
        · push_cast
          linarith [not_lt.mp h]
        · have := hall j2 hj2 (by omega)
          push_cast at this ⊢
          linarith
      · intro hall j h1 h2
        have := hall (j + 1) (by omega) (by omega)
        push_cast at this ⊢
        linarith

lemma project_aux_none_some (net : ℚ) :
    ∀ (n month : ℕ) (cum : ℚ) (m : ℕ),
      (project_aux net n month cum none).2.2 = some m →
      ∃ i : ℕ, m = month + i ∧ i < n ∧ 0 < cum + (i + 1 : ℕ) * net
        ∧ ∀ j : ℕ, j < i → cum + (j + 1 : ℕ) * net ≤ 0 := by
  intro n
  induction n with
  | zero =>
    intro month cum m hm
    simp [project_aux] at hm
  | succ n ih =>
    intro month cum m hm
    simp only [project_aux] at hm
    by_cases h : (0 : ℚ) < cum + net
    · rw [if_pos (by simp [h]), project_aux_some] at hm
      refine ⟨0, by simpa using hm.symm, by omega, by push_cast; linarith, ?_⟩
      intro j hj
      omega
    · rw [if_neg (by simp [h])] at hm
      obtain ⟨i, hmi, hin, hipos, hifirst⟩ := ih (month + 1) (cum + net) m hm
      refine ⟨i + 1, by omega, by omega, ?_, ?_⟩
      · push_cast at hipos ⊢
        linarith
      · intro j hj
        rcases Nat.eq_zero_or_pos j with rfl | hj2
        · push_cast
          linarith [not_lt.mp h]
        · rcases Nat.exists_eq_add_of_le hj2 with ⟨j2, rfl⟩
          have := hifirst j2 (by omega)
          push_cast at this ⊢
          linarith

/-- C6: the cash-flow projection of `_project_cash_flows` covers exactly 60
months of the constant net flow; the final cumulative total is
`-setup_cost + 60 × net`; `break_even` is `some m` exactly for the first
1-indexed month `m` at which the running total `-setup_cost + m × net`
becomes positive (so it is never reassigned after the first crossing), and is
`none` when no month within the 60-month horizon is positive; and the
projection is a pure function — rerunning it on identical inputs is the
identical result. -/
theorem project_cash_flows_spec (b o i s p : ℚ) :
    (project_cash_flows b o i s p).monthly.length = 60
    ∧ (project_cash_flows b o i s p).monthly = List.replicate 60 (roundTo 2 (b + o + i - p))
    ∧ (project_cash_flows b o i s p).cumulative = roundTo 2 (-s + 60 * (b + o + i - p))
    ∧ (∀ m : ℕ, (project_cash_flows b o i s p).break_even = some m →
        1 ≤ m ∧ m ≤ 60 ∧ 0 < -s + m * (b + o + i - p)
        ∧ ∀ k : ℕ, 1 ≤ k → k < m → -s + k * (b + o + i - p) ≤ 0)
    ∧ ((project_cash_flows b o i s p).break_even = none →
        ∀ k : ℕ, 1 ≤ k → k ≤ 60 → -s + k * (b + o + i - p) ≤ 0)
    ∧ project_cash_flows b o i s p = project_cash_flows b o i s p := by
  have hflows := project_aux_flows (b + o + i - p) 60 1 (-s) none
  refine ⟨?_, ?_, ?_, ?_, ?_, rfl⟩
  · simp only [project_cash_flows, hflows.1]
    simp
  · simp only [project_cash_flows, hflows.1]
  · simp only [project_cash_flows, hflows.2]
    norm_num
  · intro m hm
    simp only [project_cash_flows] at hm
    obtain ⟨j, hmj, hjn, hjpos, hjfirst⟩ :=
      project_aux_none_some (b + o + i - p) 60 1 (-s) m hm
    refine ⟨by omega, by omega, ?_, ?_⟩
    · have : ((j : ℚ) + 1) = (m : ℚ) := by
        subst hmj
        push_cast
        ring
      push_cast at hjpos
      rw [this] at hjpos
      linarith
    · intro k hk1 hk2
      have := hjfirst (k - 1) (by omega)
      have hcast : ((k - 1 : ℕ) : ℚ) + 1 = (k : ℚ) := by
        have : (1 : ℕ) ≤ k := hk1
        push_cast [Nat.cast_sub this]
        ring
      push_cast at this ⊢
      rw [hcast] at this
      linarith
  · intro hnone k hk1 hk2
    simp only [project_cash_flows] at hnone
    have := (project_aux_none_iff (b + o + i - p) 60 1 (-s)).mp hnone k hk1 hk2
    linarith

end RoiCalc

namespace RoiCalc

/-- Witness for C6 at benefits (100, 0, 0), setup 50, monthly cost 10: the
net flow is 90, the cumulative total `-50 + 1×90 = 40` is already positive in
month 1, and the projection indeed reports `break_even = some 1`. -/
theorem project_cash_flows_spec_witness :
    1 ≤ 1 ∧ 1 ≤ 60 ∧ (0 : ℚ) < -50 + (1 : ℕ) * (100 + 0 + 0 - 10)
    ∧ ∀ k : ℕ, 1 ≤ k → k < 1 → (-50 : ℚ) + k * (100 + 0 + 0 - 10) ≤ 0 :=
  (project_cash_flows_spec 100 0 0 50 10).2.2.2.1 1 (by
    simp only [project_cash_flows]
    have h60 : (60 : ℕ) = 59 + 1 := rfl
    rw [h60, project_aux]
    rw [if_pos ⟨rfl, by norm_num⟩]
    simp only [proj22_cons]
    exact project_aux_some _ 59 _ _ 1)

end RoiCalc

namespace MarketPen

lemma generate_curve_aux_bounds (b s : ℚ) (hb1 : 1/20 ≤ b) (hb2 : b ≤ 4/5)
    (hs1 : 7/10 ≤ s) (hs2 : s ≤ 3/2) :
    ∀ (n : ℕ) (c : ℚ), 0 ≤ c → c ≤ 1 →
      (∀ x ∈ generate_penetration_curve_aux b s n c, 0 ≤ x)
      ∧ c + (generate_penetration_curve_aux b s n c).sum ≤ 1 := by
  intro n
  induction n with
  | zero =>
    intro c h0 h1
    simp only [generate_penetration_curve_aux]
    exact ⟨by simp, by simpa using h1⟩
  | succ n ih =>
    intro c h0 h1
    simp only [generate_penetration_curve_aux]
    have hbpos : (0 : ℚ) ≤ b := le_trans (by norm_num) hb1
    have hspos : (0 : ℚ) ≤ s := le_trans (by norm_num) hs1
    have hpq : (0 : ℚ) ≤ 3/100 * s + 2/5 * s * c :=
      add_nonneg (mul_nonneg (by norm_num) hspos)
        (mul_nonneg (mul_nonneg (by norm_num) hspos) h0)
    have h1c : (0 : ℚ) ≤ 1 - c := by linarith
    have hanonneg : (0 : ℚ) ≤ b * ((3/100 * s + 2/5 * s * c) * (1 - c)) :=
      mul_nonneg hbpos (mul_nonneg hpq h1c)
    have hkey : b * (3/100 * s + 2/5 * s * c) ≤ 1 := by
      have hsc : 2/5 * s * c ≤ 2/5 * s := by nlinarith
      have hsum : 3/100 * s + 2/5 * s * c ≤ 129/200 := by nlinarith
      nlinarith
    have hca : c + b * ((3/100 * s + 2/5 * s * c) * (1 - c)) ≤ 1 := by
      have habove : b * ((3/100 * s + 2/5 * s * c) * (1 - c)) ≤ 1 - c := by
        calc b * ((3/100 * s + 2/5 * s * c) * (1 - c))
            = (b * (3/100 * s + 2/5 * s * c)) * (1 - c) := by ring
          _ ≤ 1 * (1 - c) := mul_le_mul_of_nonneg_right hkey h1c
          _ = 1 - c := one_mul _
      linarith
    obtain ⟨hmem, hsum⟩ := ih (c + b * ((3/100 * s + 2/5 * s * c) * (1 - c)))
      (add_nonneg h0 hanonneg) hca
    refine ⟨?_, ?_⟩
    · intro x hx
      rcases List.mem_cons.mp hx with rfl | hx2
      · exact hanonneg
      · exact hmem x hx2
    · simp only [List.sum_cons]
      linarith

lemma curve_nonneg_of_bounds (b s : ℚ) (hb1 : 1/20 ≤ b) (hb2 : b ≤ 4/5)
    (hs1 : 7/10 ≤ s) (hs2 : s ≤ 3/2) (n : ℕ) :
    ∀ x ∈ generate_penetration_curve b s n, 0 ≤ x :=
  (generate_curve_aux_bounds b s hb1 hb2 hs1 hs2 n 0 le_rfl (by norm_num)).1

lemma curve_sum_le_one (b s : ℚ) (hb1 : 1/20 ≤ b) (hb2 : b ≤ 4/5)
    (hs1 : 7/10 ≤ s) (hs2 : s ≤ 3/2) (n : ℕ) :
    (generate_penetration_curve b s n).sum ≤ 1 := by
  have := (generate_curve_aux_bounds b s hb1 hb2 hs1 hs2 n 0 le_rfl (by norm_num)).2
  simpa [generate_penetration_curve] using this

lemma sum_take_succ_of_nonneg {l : List ℚ} (h : ∀ x ∈ l, 0 ≤ x) (k : ℕ) :
    (l.take k).sum ≤ (l.take (k + 1)).sum := by
  rw [List.take_succ, List.sum_append]
  have : (0 : ℚ) ≤ (l[k]?.toList).sum := by
    cases hk : l[k]? with
    | none => simp
    | some a =>
      obtain ⟨hlt, he⟩ := List.getElem?_eq_some.mp hk
      have := h a (he ▸ List.getElem_mem hlt)
      simpa using this
  linarith

lemma sum_take_le_sum_of_nonneg {l : List ℚ} (h : ∀ x ∈ l, 0 ≤ x) (k : ℕ) :
    (l.take k).sum ≤ l.sum := by
  have hsplit : (l.take k).sum + (l.drop k).sum = l.sum := List.sum_take_add_sum_drop l k
  have hdrop : (0 : ℚ) ≤ (l.drop k).sum :=
    List.sum_nonneg (fun x hx => h x (List.mem_of_mem_drop hx))
  linarith

lemma base_rate_bounds (mc : MarketConditions) (competitors : List CompetitorData)
    (f : PenetrationFactors) :
    1/20 ≤ calculate_base_penetration_rate mc competitors f
    ∧ calculate_base_penetration_rate mc competitors f ≤ 4/5 :=
  ⟨le_min (by norm_num) (le_max_left _ _), min_le_left _ _⟩

lemma adoption_speed_bounds (industry : String) :
    7/10 ≤ industry_adoption_speed industry ∧ industry_adoption_speed industry ≤ 3/2 := by
  simp only [industry_adoption_speed]
  split_ifs <;> norm_num

/-- C8: for every base rate produced by the `[0.05, 0.8]` clamp of
`_calculate_base_penetration_rate`, every industry adoption speed from the
fixed table (all values lie in `[0.7, 1.5]`, default 1.0), and every
timeframe, the Bass-diffusion recurrence of `_generate_penetration_curve`
yields a curve whose monthly adoption values are all ≥ 0 and whose cumulative
penetration (partial sums) is non-decreasing month over month and never
exceeds 1. -/
theorem penetration_curve_invariants (mc : MarketConditions)
    (competitors : List CompetitorData) (f : PenetrationFactors)
    (industry : String) (n : ℕ) :
    (∀ x ∈ generate_penetration_curve (calculate_base_penetration_rate mc competitors f)
        (industry_adoption_speed industry) n, 0 ≤ x)
    ∧ (∀ k : ℕ,
        ((generate_penetration_curve (calculate_base_penetration_rate mc competitors f)
            (industry_adoption_speed industry) n).take k).sum
          ≤ ((generate_penetration_curve (calculate_base_penetration_rate mc competitors f)
            (industry_adoption_speed industry) n).take (k + 1)).sum)
    ∧ (∀ k : ℕ,
        ((generate_penetration_curve (calculate_base_penetration_rate mc competitors f)
            (industry_adoption_speed industry) n).take k).sum ≤ 1) := by
  obtain ⟨hb1, hb2⟩ := base_rate_bounds mc competitors f
  obtain ⟨hs1, hs2⟩ := adoption_speed_bounds industry
  have hmem := curve_nonneg_of_bounds _ _ hb1 hb2 hs1 hs2 n
  refine ⟨hmem, fun k => sum_take_succ_of_nonneg hmem k, fun k => ?_⟩
  exact le_trans (sum_take_le_sum_of_nonneg hmem k)
    (curve_sum_le_one _ _ hb1 hb2 hs1 hs2 n)

/-- Witness for C8: with all market conditions and penetration factors at 0,
no competitors, the technology industry and a one-month timeframe, the clamp
yields the base rate 0.05, the adoption speed is 1.5, the single monthly
adoption value is `0.05 × (0.045 + 0) × 1 = 9/4000`, and it is non-negative. -/
theorem penetration_curve_invariants_witness : (0 : ℚ) ≤ 9/4000 :=
  (penetration_curve_invariants ⟨0, 0, 0, 0, 0⟩ [] ⟨0, 0, 0, 0, 0⟩ "technology" 1).1
    (9/4000) (by
      have htech : pyUpper "technology" = "TECHNOLOGY" := rfl
      norm_num [generate_penetration_curve, generate_penetration_curve_aux,
        calculate_base_penetration_rate, market_impact, competitive_impact,
        competitive_pressure, factor_impact, industry_adoption_speed, htech]
      rw [if_neg (by decide), if_neg (by decide), if_neg (by decide)])

end MarketPen

namespace MarketPen

/-- C10: the competitor-impact analysis and the base-rate computation are
total on an empty competitor list: the satisfaction-weighted average is
guarded (`if total_market_share > 0`) and defaults to 0, so the satisfaction
gap is 1; churn opportunity, weighted growth and market concentration are 0;
every monthly impact entry is `round(0 × (1 + 0)^(m/12), 4) = 0`; and the
competitive-impact factor entering `_calculate_base_penetration_rate` is
`1 − 0 × 0.7 = 1`, so the base rate is the clamp of
`0.3 × market_impact × factor_impact` — the only division in the pipeline is
the guarded satisfaction average, so no division by zero occurs. -/
theorem analyze_competitor_impact_empty_total (n : ℕ) (mc : MarketConditions)
    (f : PenetrationFactors) :
    analyze_competitor_impact [] n =
      { market_concentration := 0, growth_trajectory := 0, satisfaction_gap := 1,
        churn_opportunity := 0, monthly_impact := List.replicate n 0 }
    ∧ avg_satisfaction [] = 0
    ∧ competitive_impact [] = 1
    ∧ calculate_base_penetration_rate mc [] f
        = min (4/5) (max (1/20) (3/10 * market_impact mc * 1 * factor_impact f)) := by
  refine ⟨?_, ?_, ?_, ?_⟩
  · simp only [analyze_competitor_impact, List.map_nil, List.sum_nil,
      CompetitorImpact.mk.injEq]
    refine ⟨trivial, trivial, ?_, trivial, ?_⟩
    · simp [avg_satisfaction]
    · rw [List.eq_replicate_iff]
      refine ⟨by rw [List.length_map, List.length_range], ?_⟩
      intro x hx
      simp only [List.mem_map] at hx
      obtain ⟨m, _, rfl⟩ := hx
      norm_num [roundToR]
  · simp [avg_satisfaction]
  · simp [competitive_impact, competitive_pressure]
  · simp only [calculate_base_penetration_rate, competitive_impact, competitive_pressure,
      List.map_nil, List.sum_nil, zero_mul, sub_zero]

end MarketPen

namespace Subscription

lemma combined_discount_3000 (price : ℚ) (m : ℤ) (hm12 : (12 : ℤ) ≤ m) :
    (calculate_volume_discounts price (3000 * 12) m).combined_discount = 0 := by
  simp only [calculate_volume_discounts, firstQualifyingDiscount, volume_discounts,
    term_incentives]
  rw [if_neg (by norm_num), if_neg (by norm_num), if_neg (by norm_num),
    if_neg (by norm_num), if_neg (by norm_num), if_pos hm12]
  ring

lemma candidate_monthly_cost_3000 (t : STier) (m : ℤ) (hm12 : (12 : ℤ) ≤ m) :
    candidate_monthly_cost 3000 (t, m) = t.price_per_month := by
  simp only [candidate_monthly_cost, combined_discount_3000 _ _ hm12]
  ring

lemma candidate_total_cost_3000 (t : STier) (m : ℤ) (hm12 : (12 : ℤ) ≤ m) :
    candidate_total_cost 3000 (t, m) = t.price_per_month * m + t.setup_fee := by
  simp only [candidate_total_cost, candidate_monthly_cost_3000 _ _ hm12]

lemma score_starter_3000 (m : ℤ) (hm12 : (12 : ℤ) ≤ m) :
    candidate_value_score 3000 technologyProfile (sStarter, m)
      = 620/9 + Real.log (m : ℝ) * 5 := by
  have hcount : sStarter.features.countP
      (fun f => technologyProfile.specialized_features.contains f) = 0 := by decide
  simp only [candidate_value_score, calculate_value_score,
    candidate_monthly_cost_3000 _ _ hm12, hcount]
  norm_num [sStarter]
  linarith

lemma score_professional_3000 (m : ℤ) (hm12 : (12 : ℤ) ≤ m) :
    candidate_value_score 3000 technologyProfile (sProfessional, m)
      = 85 + Real.log (m : ℝ) * 5 := by
  have hcount : sProfessional.features.countP
      (fun f => technologyProfile.specialized_features.contains f) = 0 := by decide
  simp only [candidate_value_score, calculate_value_score,
    candidate_monthly_cost_3000 _ _ hm12, hcount]
  norm_num [sProfessional]
  linarith

lemma score_enterprise_3000 (m : ℤ) (hm12 : (12 : ℤ) ≤ m) :
    candidate_value_score 3000 technologyProfile (sEnterprise, m)
      = 650/7 + Real.log (m : ℝ) * 5 := by
  have hcount : sEnterprise.features.countP
      (fun f => technologyProfile.specialized_features.contains f) = 0 := by decide
  simp only [candidate_value_score, calculate_value_score,
    candidate_monthly_cost_3000 _ _ hm12, hcount]
  norm_num [sEnterprise]
  linarith

lemma score_ultimate_3000 (m : ℤ) (hm12 : (12 : ℤ) ≤ m) :
    candidate_value_score 3000 technologyProfile (sUltimate, m)
      = 274/3 + Real.log (m : ℝ) * 5 := by
  have hcount : sUltimate.features.countP
      (fun f => technologyProfile.specialized_features.contains f) = 0 := by decide
  simp only [candidate_value_score, calculate_value_score,
    candidate_monthly_cost_3000 _ _ hm12, hcount]
  norm_num [sUltimate]
  linarith

lemma score_lt_score_of_base_le {B1 B2 : ℝ} (m1 m2 : ℤ) (hb : B1 < B2)
    (h1 : (0 : ℝ) < (m1 : ℝ)) (hm : (m1 : ℝ) ≤ (m2 : ℝ)) :
    B1 + Real.log (m1 : ℝ) * 5 < B2 + Real.log (m2 : ℝ) * 5 := by
  have := Real.log_le_log h1 hm
  linarith

lemma score_lt_score_of_log_lt {B : ℝ} (m1 m2 : ℤ) (h1 : (0 : ℝ) < (m1 : ℝ))
    (hm : (m1 : ℝ) < (m2 : ℝ)) :
    B + Real.log (m1 : ℝ) * 5 < B + Real.log (m2 : ℝ) * 5 := by
  have := Real.log_lt_log h1 hm
  linarith

lemma enterprise60_dominates :
    ∀ c ∈ optimizer_candidates, c = (sEnterprise, (60 : ℤ))
      ∨ candidate_value_score 3000 technologyProfile c
          < candidate_value_score 3000 technologyProfile (sEnterprise, 60) := by
  intro c hc
  rw [score_enterprise_3000 60 (by norm_num)]
  simp only [optimizer_candidates, sub_tiers, term_incentives, List.map_cons, List.map_nil,
    List.flatMap_cons, List.flatMap_nil, List.append_nil, List.mem_append, List.mem_cons,
    List.not_mem_nil, or_false] at hc
  rcases hc with ((rfl | rfl | rfl | rfl | rfl) | (rfl | rfl | rfl | rfl | rfl) |
    (rfl | rfl | rfl | rfl | rfl) | (rfl | rfl | rfl | rfl | rfl)) <;>
  first
    | exact Or.inl rfl
    | (refine Or.inr ?_
       first
         | (rw [score_starter_3000 _ (by norm_num)]
            exact score_lt_score_of_base_le _ 60 (by norm_num) (by norm_num) (by norm_num))
         | (rw [score_professional_3000 _ (by norm_num)]
            exact score_lt_score_of_base_le _ 60 (by norm_num) (by norm_num) (by norm_num))
         | (rw [score_enterprise_3000 _ (by norm_num)]
            exact score_lt_score_of_log_lt _ 60 (by norm_num) (by norm_num))
         | (rw [score_ultimate_3000 _ (by norm_num)]
            exact score_lt_score_of_base_le _ 60 (by norm_num) (by norm_num) (by norm_num)))

end Subscription

namespace Subscription

lemma optStep_stable (E : ℤ) (budget : Option ℚ) (profile : IndustryProfile)
    (cstar : STier × ℤ) (hskip : ¬ candidate_skipped E budget cstar) :
    ∀ l : List (STier × ℤ),
      (∀ c ∈ l, candidate_skipped E budget c ∨ c = cstar
        ∨ candidate_value_score E profile c < candidate_value_score E profile cstar) →
      List.foldl (optStep E budget profile)
        ⟨some cstar, (candidate_total_cost E cstar : WithTop ℚ),
          candidate_value_score E profile cstar⟩ l
        = ⟨some cstar, (candidate_total_cost E cstar : WithTop ℚ),
            candidate_value_score E profile cstar⟩ := by
  intro l
  induction l with
  | nil => intro _; rfl
  | cons c rest ih =>
    intro hall
    have hstep : optStep E budget profile
        ⟨some cstar, (candidate_total_cost E cstar : WithTop ℚ),
          candidate_value_score E profile cstar⟩ c
        = ⟨some cstar, (candidate_total_cost E cstar : WithTop ℚ),
            candidate_value_score E profile cstar⟩ := by
      by_cases hsk : candidate_skipped E budget c
      · simp [optStep, hsk]
      · have hcond : ¬(candidate_value_score E profile c
            > candidate_value_score E profile cstar
          ∨ (candidate_value_score E profile c = candidate_value_score E profile cstar
              ∧ (candidate_total_cost E c : WithTop ℚ)
                < (candidate_total_cost E cstar : WithTop ℚ))) := by
          rcases hall c (List.mem_cons_self _ _) with hskip2 | rfl | hlt
          · exact absurd hskip2 hsk
          · rintro (h | ⟨-, h⟩)
            · exact lt_irrefl _ h
            · exact lt_irrefl _ h
          · rintro (h | ⟨he, -⟩)
            · exact lt_asymm hlt h
            · exact absurd he (ne_of_lt hlt)
        simp only [optStep, if_neg hsk, if_neg hcond]
    rw [List.foldl_cons, hstep]
    exact ih (fun c2 hc2 => hall c2 (List.mem_cons_of_mem _ hc2))

lemma optStep_foldl_argmax (E : ℤ) (budget : Option ℚ) (profile : IndustryProfile)
    (cstar : STier × ℤ) (hskip : ¬ candidate_skipped E budget cstar)
    (hpos : 0 < candidate_value_score E profile cstar) :
    ∀ (l : List (STier × ℤ)),
      (∀ c ∈ l, candidate_skipped E budget c ∨ c = cstar
        ∨ candidate_value_score E profile c < candidate_value_score E profile cstar) →
      cstar ∈ l →
      ∀ s : OptState,
      (s = ⟨none, ⊤, 0⟩ ∨ ∃ c2, ¬candidate_skipped E budget c2
        ∧ s = ⟨some c2, (candidate_total_cost E c2 : WithTop ℚ),
            candidate_value_score E profile c2⟩
        ∧ candidate_value_score E profile c2 < candidate_value_score E profile cstar) →
      List.foldl (optStep E budget profile) s l
        = ⟨some cstar, (candidate_total_cost E cstar : WithTop ℚ),
            candidate_value_score E profile cstar⟩ := by
  intro l
  induction l with
  | nil =>
    intro _ hmem _ _
    simp at hmem
  | cons c rest ih =>
    intro hall hmem s hs
    rw [List.foldl_cons]
    by_cases hceq : c = cstar
    · subst hceq
      have hstep : optStep E budget profile s c
          = ⟨some c, (candidate_total_cost E c : WithTop ℚ),
              candidate_value_score E profile c⟩ := by
        rcases hs with rfl | ⟨c2, hc2skip, rfl, hc2lt⟩
        · simp only [optStep, if_neg hskip]
          rw [if_pos (Or.inl hpos)]
        · simp only [optStep, if_neg hskip]
          rw [if_pos (Or.inl hc2lt)]
      rw [hstep]
      exact optStep_stable E budget profile c hskip rest
        (fun c2 hc2 => hall c2 (List.mem_cons_of_mem _ hc2))
    · have hmem2 : cstar ∈ rest := by
        rcases List.mem_cons.mp hmem with h | h
        · exact absurd h.symm hceq
        · exact h
      refine ih (fun c2 hc2 => hall c2 (List.mem_cons_of_mem _ hc2)) hmem2 _ ?_
      by_cases hsk : candidate_skipped E budget c
      · simp only [optStep, if_pos hsk]
        exact hs
      · rcases hall c (List.mem_cons_self _ _) with hskip2 | hceq2 | hlt
        · exact absurd hskip2 hsk
        · exact absurd hceq2 hceq
        · simp only [optStep, if_neg hsk]
          by_cases hcond : (candidate_value_score E profile c > s.best_value
            ∨ (candidate_value_score E profile c = s.best_value
                ∧ (candidate_total_cost E c : WithTop ℚ) < s.min_cost))
          · rw [if_pos hcond]
            exact Or.inr ⟨c, hsk, rfl, hlt⟩
          · rw [if_neg hcond]
            exact hs

end Subscription

namespace Subscription

lemma optimizer_fold_3000_zero_budget :
    optimizer_candidates.foldl (optStep 3000 (some 0) technologyProfile) ⟨none, ⊤, 0⟩
      = ⟨some (sEnterprise, 60), (candidate_total_cost 3000 (sEnterprise, 60) : WithTop ℚ),
          candidate_value_score 3000 technologyProfile (sEnterprise, 60)⟩ := by
  apply optStep_foldl_argmax 3000 (some 0) technologyProfile (sEnterprise, 60)
  · simp [candidate_skipped]
  · rw [score_enterprise_3000 60 (by norm_num)]
    have key : ∀ x : ℝ, 0 < x → 0 < 650/7 + x * 5 := fun x hx => by linarith
    exact key _ (Real.log_pos (by norm_num))
  · intro c hc
    exact Or.inr (enterprise60_dominates c hc)
  · simp [optimizer_candidates, sub_tiers, term_incentives]
  · left
    rfl

/-- C2: `optimize_contract_terms(estimatedCalls=3000, industry="technology",
budget_constraint=0)` — a positive call volume, a known industry and a
supplied budget of 0 — returns the (Enterprise, 60-month) configuration with
`total_contract_value = 215000`, which exceeds the supplied budget, instead of
the explicit infeasible result: the Python truthiness test
`if budget_constraint and total_cost > budget_constraint` treats the supplied
budget 0 as "no constraint" and never filters any candidate. -/
theorem optimize_contract_terms_returns_over_budget :
    outcome_tier (optimize_contract_terms 3000 "technology" (some 0)) = some "Enterprise"
    ∧ outcome_total (optimize_contract_terms 3000 "technology" (some 0)) = some 215000
    ∧ ¬(215000 : ℚ) ≤ 0 := by
  have hprof : lookup_profile "technology" = some technologyProfile := by
    simp only [lookup_profile]
    rw [show pyUpper "technology" = "TECHNOLOGY" from rfl]
    rw [if_neg (by decide), if_neg (by decide), if_neg (by decide), if_pos rfl]
  have hfind : (sub_tiers.find? (fun p => p.1 = pyLower "Enterprise")).map Prod.snd
      = some sEnterprise := by
    rw [show pyLower "Enterprise" = "enterprise" from rfl]
    simp only [sub_tiers]
    rw [List.find?_cons_of_neg _ (by decide), List.find?_cons_of_neg _ (by decide),
      List.find?_cons_of_pos _ (by decide)]
    rfl
  have hcost : calculate_subscription_cost "Enterprise" 60 3000
      = .ok { base_monthly_fee := 3500, setup_fee := 5000, estimated_monthly_overage := 0,
              total_monthly_cost := 3500, total_contract_value := 215000 } := by
    simp only [calculate_subscription_cost, hfind]
    rw [if_neg (by norm_num [sEnterprise])]
    have hmax : max (0 : ℤ) (3000 - sEnterprise.max_calls) = 0 := by decide
    simp only [hmax]
    norm_num [sEnterprise, SubCost.mk.injEq]
  simp only [optimize_contract_terms, hprof, optimizer_fold_3000_zero_budget]
  rw [show sEnterprise.name = "Enterprise" from rfl, hcost]
  simp only [outcome_tier, outcome_total]
  refine ⟨trivial, ?_, by norm_num⟩
  rw [candidate_total_cost_3000 _ _ (by norm_num)]
  rw [show sEnterprise.price_per_month * (60 : ℤ) + sEnterprise.setup_fee = 215000 from by
    norm_num [sEnterprise]]
  rw [show ((215000 : ℚ) : WithTop ℚ).untop' 0 = (215000 : ℚ) from rfl]
  norm_num [roundTo, round_eq]

end Subscription
